import Mathlib

/-!
Shallow embedding of the secret-monitor subsystem of `library-go`
(`pkg/route/secret`): the reference-counted multiplexer `secretMonitor`
over per-identity `singleItemMonitor` values.

The external collaborator (the client-go `SharedInformer`) is modelled at
its interface boundary: each call that consults the informer takes the
informer's response as an explicit argument, so theorems quantify over
every possible collaborator behaviour.  Handler values and informer
registration tokens are opaque and modelled as `Nat`.

The Go field `numHandlers` is an `atomic.Int32`; it is modelled as an
unbounded `Int` (wraparound beyond 2^31 concurrently live handlers is not
modelled).  The `gen` field of `SingleItemMonitor` and the `nextGen` field
of `SecretMonitorState` are ghost data recording Go pointer identity of
each freshly allocated `*singleItemMonitor`: `gen` is the allocation
number, `nextGen` the number of allocations performed so far.
-/

namespace RouteSecret

/-- Namespace/name pair identifying a watched secret (`ObjectKey` in monitor.go). -/
structure ObjectKey where
  Namespace : String
  Name : String
deriving DecidableEq, Repr

/-- `NewObjectKey` from monitor.go. -/
def NewObjectKey (ns name : String) : ObjectKey :=
  { Namespace := ns, Name := name }

/-- Abstract stand-in for a `*v1.Secret` value held in the informer cache. -/
structure V1Secret where
  secName : String
  secNamespace : String
  dataTag : Nat
deriving DecidableEq, Repr

/-- A dynamically typed entry of the informer store: either a secret, or a
value of some other runtime type, on which the `uncast.(*v1.Secret)` type
assertion in `GetSecret` fails. -/
inductive CacheEntry where
  | secretObj (s : V1Secret)
  | otherType (typeName : String)
deriving DecidableEq, Repr

/-- The distinct error-return sites of the two source files, each modelled as
one constructor of a Go `error` value. -/
inductive GoError where
  /-- secret_monitor.go: "secret handler is nil". -/
  | nilHandler
  /-- monitor.go AddEventHandler: "can not add hanler %v to already stopped informer". -/
  | alreadyStoppedAdd (handler : Nat)
  /-- monitor.go RemoveEventHandler: "can not remove handler %v from stopped informer". -/
  | alreadyStoppedRemove (token : Nat)
  /-- An error returned by the external informer and propagated verbatim. -/
  | informerError (msg : String)
  /-- secret_monitor.go GetSecret: "secret monitor doesn't exist for key %v". -/
  | monitorDoesNotExist (key : ObjectKey)
  /-- secret_monitor.go GetSecret: "secret %s doesn't exist in cache". -/
  | notInCache (name : String)
  /-- secret_monitor.go GetSecret: "unexpected type: %T". -/
  | unexpectedType (typeName : String)
deriving DecidableEq, Repr

/-- State of one `singleItemMonitor` (monitor.go).  `stopChClosed` records
whether `close(stopCh)` has been executed; `store` is the local cache of the
owned informer, keyed by the `namespace/name` string; `gen` is ghost pointer
identity (see the file header). -/
structure SingleItemMonitor where
  key : ObjectKey
  numHandlers : Int
  stopped : Bool
  stopChClosed : Bool
  store : List (String × CacheEntry)
  gen : Nat
deriving DecidableEq, Repr

/-- `newSingleItemMonitor` (monitor.go): zero handlers, not stopped, a fresh
open stop channel.  `store` stands for the informer argument's cache and
`gen` for the address of the new allocation. -/
def newSingleItemMonitor (key : ObjectKey) (store : List (String × CacheEntry))
    (gen : Nat) : SingleItemMonitor :=
  { key := key, numHandlers := 0, stopped := false, stopChClosed := false,
    store := store, gen := gen }

/-- The concrete registration struct `secretEventHandlerRegistration`
(secret_monitor.go): the informer's opaque listener token plus the
`ObjectKey` populated during `AddEventHandler`. -/
structure SecretEventHandlerRegistration where
  token : Nat
  objectKey : ObjectKey
deriving DecidableEq, Repr

/-- `GetKey` (secret_monitor.go). -/
def SecretEventHandlerRegistration.GetKey (r : SecretEventHandlerRegistration) : ObjectKey :=
  r.objectKey

/-- `GetHandler` (secret_monitor.go): the underlying informer token. -/
def SecretEventHandlerRegistration.GetHandler (r : SecretEventHandlerRegistration) : Nat :=
  r.token

/-- `StartInformer` (monitor.go) runs the informer loop until `stopCh`
closes; it changes none of the modelled fields (asynchronous cache
population is outside the claims). -/
def SingleItemMonitor.StartInformer (i : SingleItemMonitor) : SingleItemMonitor :=
  i

/-- `StopInformer` (monitor.go): under the monitor lock, return `false` if
already stopped, otherwise set `stopped`, close the channel and return
`true`. -/
def SingleItemMonitor.StopInformer (i : SingleItemMonitor) : Bool × SingleItemMonitor :=
  if i.stopped then
    (false, i)
  else
    (true, { i with stopped := true, stopChClosed := true })

/-- `AddEventHandler` (monitor.go).  `handler` is the opaque
`cache.ResourceEventHandler` argument; `informerAdd` is the response of the
external informer's own `AddEventHandler` (a listener token on success).
Fails when stopped; on informer failure the error is returned and the
counter is untouched; on success the counter is incremented and the
returned registration embeds the monitor's key. -/
def SingleItemMonitor.AddEventHandler (i : SingleItemMonitor) (handler : Nat)
    (informerAdd : Except String Nat) :
    Except GoError SecretEventHandlerRegistration × SingleItemMonitor :=
  if i.stopped then
    (Except.error (GoError.alreadyStoppedAdd handler), i)
  else
    match informerAdd with
    | Except.error msg => (Except.error (GoError.informerError msg), i)
    | Except.ok tok =>
        (Except.ok { token := tok, objectKey := i.key },
         { i with numHandlers := i.numHandlers + 1 })

/-- Outcome of a Go call that may return normally, return an error, or
panic.  `RemoveEventHandler` panics (nil-interface method call) when its
handle is nil. -/
inductive RemoveResult where
  | ok
  | errored (e : GoError)
  | panicked
deriving DecidableEq, Repr

/-- `RemoveEventHandler` (monitor.go).  A nil handle panics: both branches
of the body invoke `handle.GetHandler()` (in the stopped-error message or
as the informer argument) before any state change, and a method call on a
nil interface is a Go runtime panic — there is no nil check.  On a stopped
monitor it fails without touching the counter; otherwise the informer's
response `informerRemove` (`none` = success) decides: an informer error is
returned unchanged, success decrements the counter unconditionally. -/
def SingleItemMonitor.RemoveEventHandler (i : SingleItemMonitor)
    (handle : Option SecretEventHandlerRegistration)
    (informerRemove : Option String) : RemoveResult × SingleItemMonitor :=
  match handle with
  | none => (RemoveResult.panicked, i)
  | some r =>
    if i.stopped then
      (RemoveResult.errored (GoError.alreadyStoppedRemove r.GetHandler), i)
    else
      match informerRemove with
      | some msg => (RemoveResult.errored (GoError.informerError msg), i)
      | none => (RemoveResult.ok, { i with numHandlers := i.numHandlers - 1 })

/-- Lookup in the informer's store, mirroring `GetStore().GetByKey`. -/
def storeLookup : List (String × CacheEntry) → String → Option CacheEntry
  | [], _ => none
  | (k, v) :: rest, s => if k = s then some v else storeLookup rest s

/-- `GetItem` (monitor.go): point lookup at `namespace/name`.  The Go call
returns `(item, exists, err)` where `exists = (item ≠ nil)` is this
option's `isSome` and `err` is always nil for the informer's thread-safe
store, so both are folded into one `Option`. -/
def SingleItemMonitor.GetItem (i : SingleItemMonitor) : Option CacheEntry :=
  storeLookup i.store (i.key.Namespace ++ "/" ++ i.key.Name)

/-- Association-list lookup standing for reading the Go map
`monitors map[ObjectKey]*singleItemMonitor`. -/
def mapLookup : List (ObjectKey × SingleItemMonitor) → ObjectKey →
    Option SingleItemMonitor
  | [], _ => none
  | (k, v) :: rest, key => if k = key then some v else mapLookup rest key

/-- Map write `s.monitors[key] = m`, also used to model the write-through
of mutations made via the stored `*singleItemMonitor` pointer: replaces the
entry when the key is present, appends otherwise. -/
def mapInsert : List (ObjectKey × SingleItemMonitor) → ObjectKey →
    SingleItemMonitor → List (ObjectKey × SingleItemMonitor)
  | [], key, m => [(key, m)]
  | (k, v) :: rest, key, m =>
      if k = key then (key, m) :: rest else (k, v) :: mapInsert rest key m

/-- `delete(s.monitors, key)`. -/
def mapDelete : List (ObjectKey × SingleItemMonitor) → ObjectKey →
    List (ObjectKey × SingleItemMonitor)
  | [], _ => []
  | (k, v) :: rest, key =>
      if k = key then mapDelete rest key else (k, v) :: mapDelete rest key

/-- State of the multiplexer `secretMonitor` (secret_monitor.go): the
monitors map (the kube client is not modelled) plus the ghost allocation
counter `nextGen` (number of `newSingleItemMonitor` allocations so far). -/
structure SecretMonitorState where
  monitors : List (ObjectKey × SingleItemMonitor)
  nextGen : Nat
deriving DecidableEq, Repr

/-- `NewSecretMonitor` (secret_monitor.go): empty map. -/
def NewSecretMonitor : SecretMonitorState :=
  { monitors := [], nextGen := 0 }

/-- `addSecretEventHandler` (secret_monitor.go), the body shared by
`AddSecretEventHandler`.  Under the multiplexer lock: build the key; if no
monitor exists, allocate one over a fresh informer (empty cache), start it
asynchronously and insert it; then delegate to the monitor's
`AddEventHandler`, whose in-place mutation of the mapped monitor is written
back through `mapInsert`. -/
def SecretMonitorState.addSecretEventHandler (s : SecretMonitorState)
    (ns secretName : String) (handler : Nat) (informerAdd : Except String Nat) :
    Except GoError SecretEventHandlerRegistration × SecretMonitorState :=
  let key := NewObjectKey ns secretName
  match mapLookup s.monitors key with
  | some m =>
      let res := m.AddEventHandler handler informerAdd
      (res.1, { s with monitors := mapInsert s.monitors key res.2 })
  | none =>
      let m := (newSingleItemMonitor key [] s.nextGen).StartInformer
      let res := m.AddEventHandler handler informerAdd
      (res.1, { monitors := mapInsert s.monitors key res.2, nextGen := s.nextGen + 1 })

/-- `RemoveSecretEventHandler` (secret_monitor.go).  Nil registration is a
typed error; an absent key is a benign no-op success; otherwise delegate to
the monitor's `RemoveEventHandler` (propagating its error or panic with the
pointer write-through applied) and, when the post-removal counter is `≤ 0`,
stop the monitor (a `false` stop result is only logged) and delete its map
entry. -/
def SecretMonitorState.RemoveSecretEventHandler (s : SecretMonitorState)
    (reg : Option SecretEventHandlerRegistration) (informerRemove : Option String) :
    RemoveResult × SecretMonitorState :=
  match reg with
  | none => (RemoveResult.errored GoError.nilHandler, s)
  | some r =>
    let key := r.GetKey
    match mapLookup s.monitors key with
    | none => (RemoveResult.ok, s)
    | some m =>
      let res := m.RemoveEventHandler (some r) informerRemove
      match res.1 with
      | RemoveResult.panicked =>
          (RemoveResult.panicked, { s with monitors := mapInsert s.monitors key res.2 })
      | RemoveResult.errored e =>
          (RemoveResult.errored e, { s with monitors := mapInsert s.monitors key res.2 })
      | RemoveResult.ok =>
          if res.2.numHandlers ≤ 0 then
            (RemoveResult.ok,
             { s with monitors :=
                 mapDelete (mapInsert s.monitors key (res.2.StopInformer).2) key })
          else
            (RemoveResult.ok, { s with monitors := mapInsert s.monitors key res.2 })

/-- `GetSecret` (secret_monitor.go).  Nil registration and absent key are
typed errors; otherwise the monitor's `GetItem` decides: a cache miss is a
typed not-found error (never an empty success), a non-secret entry fails
the type assertion, and a secret entry is returned with nil error. -/
def SecretMonitorState.GetSecret (s : SecretMonitorState)
    (reg : Option SecretEventHandlerRegistration) : Except GoError V1Secret :=
  match reg with
  | none => Except.error GoError.nilHandler
  | some r =>
    let key := r.GetKey
    match mapLookup s.monitors key with
    | none => Except.error (GoError.monitorDoesNotExist key)
    | some m =>
      match m.GetItem with
      | none => Except.error (GoError.notInCache key.Name)
      | some (CacheEntry.secretObj sec) => Except.ok sec
      | some (CacheEntry.otherType t) => Except.error (GoError.unexpectedType t)

/-- One public call on the multiplexer, together with the external
informer's response for that call (for calls that consult the informer). -/
inductive MuxOp where
  | add (ns secretName : String) (handler : Nat) (informerAdd : Except String Nat)
  | remove (reg : Option SecretEventHandlerRegistration) (informerRemove : Option String)
  | get (reg : Option SecretEventHandlerRegistration)
deriving Repr

/-- State transition of one multiplexer call (`GetSecret` only reads). -/
def muxStep (s : SecretMonitorState) : MuxOp → SecretMonitorState
  | MuxOp.add ns n h r => (s.addSecretEventHandler ns n h r).2
  | MuxOp.remove reg r => (s.RemoveSecretEventHandler reg r).2
  | MuxOp.get _ => s

/-- Run a sequence of multiplexer calls. -/
def muxRun (s : SecretMonitorState) : List MuxOp → SecretMonitorState
  | [] => s
  | op :: rest => muxRun (muxStep s op) rest

/-- One call on a single monitor, with the informer's response where the
call consults the informer. -/
inductive MonOp where
  | add (handler : Nat) (informerAdd : Except String Nat)
  | remove (handle : Option SecretEventHandlerRegistration) (informerRemove : Option String)
  | stop
deriving Repr

/-- State transition of one monitor call. -/
def monStep (i : SingleItemMonitor) : MonOp → SingleItemMonitor
  | MonOp.add h r => (i.AddEventHandler h r).2
  | MonOp.remove handle r => (i.RemoveEventHandler handle r).2
  | MonOp.stop => (i.StopInformer).2

/-- Run a sequence of monitor calls. -/
def monRun (i : SingleItemMonitor) : List MonOp → SingleItemMonitor
  | [] => i
  | op :: rest => monRun (monStep i op) rest

/-- The informer accepted the handler registration of this call (vacuously
true for calls other than `add`). -/
def opAddOk : MuxOp → Bool
  | MuxOp.add _ _ _ (Except.error _) => false
  | _ => true

/-- The call targets identity `k`: an add for `k`, or a remove presenting a
registration carrying `k`. -/
def opTargetsKey (k : ObjectKey) : MuxOp → Bool
  | MuxOp.add ns n _ _ => NewObjectKey ns n = k
  | MuxOp.remove (some r) _ => r.objectKey = k
  | MuxOp.remove none _ => false
  | MuxOp.get _ => false

/-- Number of adds in the trace whose informer registration succeeded
(a successful add, given a mapped unstopped monitor). -/
def succAddCount : List MuxOp → Int
  | [] => 0
  | MuxOp.add _ _ _ (Except.ok _) :: rest => succAddCount rest + 1
  | _ :: rest => succAddCount rest

/-- Number of removes in the trace presenting a registration and whose
informer removal succeeded (a successful remove, given a mapped unstopped
monitor). -/
def succRemoveCount : List MuxOp → Int
  | [] => 0
  | MuxOp.remove (some _) none :: rest => succRemoveCount rest + 1
  | _ :: rest => succRemoveCount rest

/-- Well-formedness of one map entry: the mapped monitor carries its map
key, a non-negative counter, and is not stopped. -/
def goodEntry (p : ObjectKey × SingleItemMonitor) : Prop :=
  p.2.key = p.1 ∧ 0 ≤ p.2.numHandlers ∧ p.2.stopped = false

/-- Strict well-formedness: additionally the counter is positive. -/
def strictEntry (p : ObjectKey × SingleItemMonitor) : Prop :=
  p.2.key = p.1 ∧ 0 < p.2.numHandlers ∧ p.2.stopped = false

/-- Multiplexer state invariant: every entry is well formed and keys are
pairwise distinct (at most one monitor per identity). -/
def StateWF (s : SecretMonitorState) : Prop :=
  (∀ p ∈ s.monitors, goodEntry p) ∧ (s.monitors.map Prod.fst).Nodup

instance : DecidablePred goodEntry := fun p => by unfold goodEntry; infer_instance

instance : DecidablePred strictEntry := fun p => by unfold strictEntry; infer_instance

/-- Strict multiplexer invariant: every entry is strictly well formed and
keys are pairwise distinct. -/
def StrictWF (s : SecretMonitorState) : Prop :=
  (∀ p ∈ s.monitors, strictEntry p) ∧ (s.monitors.map Prod.fst).Nodup

instance (s : SecretMonitorState) : Decidable (StateWF s) := by
  unfold StateWF; infer_instance

instance (s : SecretMonitorState) : Decidable (StrictWF s) := by
  unfold StrictWF; infer_instance

/-- Concrete fixture: the identity `a/x`, used by the closed witness and
counterexample theorems. -/
def keyAX : ObjectKey := NewObjectKey "a" "x"

/-- Concrete fixture: a secret cached under `a/x`. -/
def secAX : V1Secret := { secName := "x", secNamespace := "a", dataTag := 7 }

/-- Concrete fixture: a running monitor for `a/x` with one listener whose
informer cache holds `secAX`. -/
def monAX1 : SingleItemMonitor :=
  { key := keyAX, numHandlers := 1, stopped := false, stopChClosed := false,
    store := [("a/x", CacheEntry.secretObj secAX)], gen := 0 }

/-- Concrete fixture: the stopped variant of `monAX1`. -/
def monAXStopped : SingleItemMonitor :=
  { monAX1 with stopped := true, stopChClosed := true }

/-- Concrete fixture: a registration for `a/x` with informer token 3. -/
def regAX : SecretEventHandlerRegistration := { token := 3, objectKey := keyAX }

/-- Concrete fixture: a multiplexer whose map holds `monAX1` under `a/x`. -/
def stateAX1 : SecretMonitorState := { monitors := [(keyAX, monAX1)], nextGen := 1 }

/-- Concrete fixture: a three-call trace on the identity `a/x` (two
successful adds, one successful remove). -/
def opsAX : List MuxOp :=
  [MuxOp.add "a" "x" 1 (Except.ok 10),
   MuxOp.add "a" "x" 2 (Except.ok 11),
   MuxOp.remove (some { token := 10, objectKey := keyAX }) none]

theorem mapLookup_mapInsert_self (l : List (ObjectKey × SingleItemMonitor))
    (k : ObjectKey) (m : SingleItemMonitor) :
    mapLookup (mapInsert l k m) k = some m := by
  induction l with
  | nil => simp [mapInsert, mapLookup]
  | cons p rest ih =>
    obtain ⟨k', v⟩ := p
    by_cases h : k' = k
    · simp [mapInsert, mapLookup, h]
    · simp [mapInsert, mapLookup, h, ih]

theorem mem_mapInsert {l : List (ObjectKey × SingleItemMonitor)} {k : ObjectKey}
    {m : SingleItemMonitor} {p : ObjectKey × SingleItemMonitor}
    (hp : p ∈ mapInsert l k m) : p = (k, m) ∨ p ∈ l := by
  induction l with
  | nil => simpa [mapInsert] using hp
  | cons q rest ih =>
    obtain ⟨k', v⟩ := q
    by_cases h : k' = k
    · simp only [mapInsert, if_pos h, List.mem_cons] at hp
      rcases hp with h1 | h1
      · exact Or.inl h1
      · exact Or.inr (List.mem_cons_of_mem _ h1)
    · simp only [mapInsert, if_neg h, List.mem_cons] at hp
      rcases hp with h1 | h1
      · exact Or.inr (by simp [h1])
      · rcases ih h1 with h2 | h2
        · exact Or.inl h2
        · exact Or.inr (List.mem_cons_of_mem _ h2)

theorem mem_keys_mapInsert {l : List (ObjectKey × SingleItemMonitor)} {k : ObjectKey}
    {m : SingleItemMonitor} {a : ObjectKey}
    (h : a ∈ (mapInsert l k m).map Prod.fst) : a = k ∨ a ∈ l.map Prod.fst := by
  rcases List.mem_map.mp h with ⟨p, hp, rfl⟩
  rcases mem_mapInsert hp with h1 | h1
  · exact Or.inl (by rw [h1])
  · exact Or.inr (List.mem_map_of_mem _ h1)

theorem nodup_keys_mapInsert {l : List (ObjectKey × SingleItemMonitor)} {k : ObjectKey}
    {m : SingleItemMonitor} (h : (l.map Prod.fst).Nodup) :
    ((mapInsert l k m).map Prod.fst).Nodup := by
  induction l with
  | nil => simp [mapInsert]
  | cons q rest ih =>
    obtain ⟨k', v⟩ := q
    simp only [List.map_cons, List.nodup_cons] at h
    by_cases hk : k' = k
    · subst hk
      simpa [mapInsert] using h
    · simp only [mapInsert, if_neg hk, List.map_cons, List.nodup_cons]
      refine ⟨fun hmem => ?_, ih h.2⟩
      rcases mem_keys_mapInsert hmem with h1 | h1
      · exact hk h1
      · exact h.1 h1

theorem mem_mapDelete {l : List (ObjectKey × SingleItemMonitor)} {k : ObjectKey}
    {p : ObjectKey × SingleItemMonitor} (hp : p ∈ mapDelete l k) :
    p ∈ l ∧ p.1 ≠ k := by
  induction l with
  | nil => simp [mapDelete] at hp
  | cons q rest ih =>
    obtain ⟨k', v⟩ := q
    by_cases h : k' = k
    · simp only [mapDelete, if_pos h] at hp
      exact ⟨List.mem_cons_of_mem _ (ih hp).1, (ih hp).2⟩
    · simp only [mapDelete, if_neg h, List.mem_cons] at hp
      rcases hp with h1 | h1
      · refine ⟨by simp [h1], ?_⟩
        rw [h1]
        exact h
      · exact ⟨List.mem_cons_of_mem _ (ih h1).1, (ih h1).2⟩

theorem nodup_keys_mapDelete {l : List (ObjectKey × SingleItemMonitor)} {k : ObjectKey}
    (h : (l.map Prod.fst).Nodup) : ((mapDelete l k).map Prod.fst).Nodup := by
  induction l with
  | nil => simp [mapDelete]
  | cons q rest ih =>
    obtain ⟨k', v⟩ := q
    simp only [List.map_cons, List.nodup_cons] at h
    by_cases hk : k' = k
    · simp only [mapDelete, if_pos hk]
      exact ih h.2
    · simp only [mapDelete, if_neg hk, List.map_cons, List.nodup_cons]
      refine ⟨fun hmem => ?_, ih h.2⟩
      rcases List.mem_map.mp hmem with ⟨p, hp, rfl⟩
      exact h.1 (List.mem_map_of_mem _ (mem_mapDelete hp).1)

theorem mapLookup_mapDelete_self (l : List (ObjectKey × SingleItemMonitor))
    (k : ObjectKey) : mapLookup (mapDelete l k) k = none := by
  induction l with
  | nil => simp [mapDelete, mapLookup]
  | cons q rest ih =>
    obtain ⟨k', v⟩ := q
    by_cases h : k' = k
    · simpa [mapDelete, h] using ih
    · simpa [mapDelete, mapLookup, h] using ih

theorem mapLookup_mem {l : List (ObjectKey × SingleItemMonitor)} {k : ObjectKey}
    {m : SingleItemMonitor} (h : mapLookup l k = some m) : (k, m) ∈ l := by
  induction l with
  | nil => simp [mapLookup] at h
  | cons q rest ih =>
    obtain ⟨k', v⟩ := q
    by_cases hk : k' = k
    · simp only [mapLookup, if_pos hk, Option.some.injEq] at h
      simp [← hk, ← h]
    · simp only [mapLookup, if_neg hk] at h
      exact List.mem_cons_of_mem _ (ih h)

theorem mapInsert_lookup_self {l : List (ObjectKey × SingleItemMonitor)} {k : ObjectKey}
    {m : SingleItemMonitor} (h : mapLookup l k = some m) : mapInsert l k m = l := by
  induction l with
  | nil => simp [mapLookup] at h
  | cons q rest ih =>
    obtain ⟨k', v⟩ := q
    by_cases hk : k' = k
    · simp only [mapLookup, if_pos hk, Option.some.injEq] at h
      simp [mapInsert, hk, ← h]
    · simp only [mapLookup, if_neg hk] at h
      simp [mapInsert, hk, ih h]

theorem wfEntries_mapInsert {P : ObjectKey × SingleItemMonitor → Prop}
    {l : List (ObjectKey × SingleItemMonitor)} {k : ObjectKey} {m : SingleItemMonitor}
    (hall : ∀ p ∈ l, P p) (hm : P (k, m)) : ∀ p ∈ mapInsert l k m, P p := by
  intro p hp
  rcases mem_mapInsert hp with h | h
  · rw [h]; exact hm
  · exact hall p h

theorem wfEntries_mapDelete {P : ObjectKey × SingleItemMonitor → Prop}
    {l : List (ObjectKey × SingleItemMonitor)} {k : ObjectKey}
    (hall : ∀ p ∈ l, P p) : ∀ p ∈ mapDelete l k, P p :=
  fun p hp => hall p (mem_mapDelete hp).1

theorem addEventHandler_stopped {i : SingleItemMonitor} (h : i.stopped = true)
    (hdl : Nat) (r : Except String Nat) :
    i.AddEventHandler hdl r = (Except.error (GoError.alreadyStoppedAdd hdl), i) := by
  simp [SingleItemMonitor.AddEventHandler, h]

theorem addEventHandler_ok {i : SingleItemMonitor} (h : i.stopped = false)
    (hdl tok : Nat) :
    i.AddEventHandler hdl (Except.ok tok) =
      (Except.ok { token := tok, objectKey := i.key },
       { i with numHandlers := i.numHandlers + 1 }) := by
  simp [SingleItemMonitor.AddEventHandler, h]

theorem addEventHandler_informer_err {i : SingleItemMonitor} (h : i.stopped = false)
    (hdl : Nat) (msg : String) :
    i.AddEventHandler hdl (Except.error msg) =
      (Except.error (GoError.informerError msg), i) := by
  simp [SingleItemMonitor.AddEventHandler, h]

theorem removeEventHandler_nil (i : SingleItemMonitor) (ro : Option String) :
    i.RemoveEventHandler none ro = (RemoveResult.panicked, i) := by
  simp [SingleItemMonitor.RemoveEventHandler]

theorem removeEventHandler_stopped {i : SingleItemMonitor} (h : i.stopped = true)
    (r : SecretEventHandlerRegistration) (ro : Option String) :
    i.RemoveEventHandler (some r) ro =
      (RemoveResult.errored (GoError.alreadyStoppedRemove r.GetHandler), i) := by
  simp [SingleItemMonitor.RemoveEventHandler, h]

theorem removeEventHandler_informer_err {i : SingleItemMonitor} (h : i.stopped = false)
    (r : SecretEventHandlerRegistration) (msg : String) :
    i.RemoveEventHandler (some r) (some msg) =
      (RemoveResult.errored (GoError.informerError msg), i) := by
  simp [SingleItemMonitor.RemoveEventHandler, h]

theorem removeEventHandler_ok {i : SingleItemMonitor} (h : i.stopped = false)
    (r : SecretEventHandlerRegistration) :
    i.RemoveEventHandler (some r) none =
      (RemoveResult.ok, { i with numHandlers := i.numHandlers - 1 }) := by
  simp [SingleItemMonitor.RemoveEventHandler, h]

theorem addSecretEventHandler_present {s : SecretMonitorState} {ns n : String}
    {m : SingleItemMonitor} (hlook : mapLookup s.monitors (NewObjectKey ns n) = some m)
    (hdl : Nat) (r : Except String Nat) :
    s.addSecretEventHandler ns n hdl r =
      ((m.AddEventHandler hdl r).1,
       { s with monitors :=
           mapInsert s.monitors (NewObjectKey ns n) (m.AddEventHandler hdl r).2 }) := by
  simp [SecretMonitorState.addSecretEventHandler, hlook]

theorem addSecretEventHandler_absent {s : SecretMonitorState} {ns n : String}
    (hlook : mapLookup s.monitors (NewObjectKey ns n) = none)
    (hdl : Nat) (r : Except String Nat) :
    s.addSecretEventHandler ns n hdl r =
      (((newSingleItemMonitor (NewObjectKey ns n) [] s.nextGen).AddEventHandler hdl r).1,
       { monitors :=
           mapInsert s.monitors (NewObjectKey ns n)
             ((newSingleItemMonitor (NewObjectKey ns n) [] s.nextGen).AddEventHandler hdl r).2,
         nextGen := s.nextGen + 1 }) := by
  simp [SecretMonitorState.addSecretEventHandler, hlook, SingleItemMonitor.StartInformer]

theorem removeSecret_nil (s : SecretMonitorState) (ro : Option String) :
    s.RemoveSecretEventHandler none ro = (RemoveResult.errored GoError.nilHandler, s) := by
  simp [SecretMonitorState.RemoveSecretEventHandler]

theorem removeSecret_absent {s : SecretMonitorState} {r : SecretEventHandlerRegistration}
    (hlook : mapLookup s.monitors r.GetKey = none) (ro : Option String) :
    s.RemoveSecretEventHandler (some r) ro = (RemoveResult.ok, s) := by
  simp [SecretMonitorState.RemoveSecretEventHandler, hlook]

theorem removeSecret_present_err {s : SecretMonitorState}
    {r : SecretEventHandlerRegistration} {m : SingleItemMonitor} {e : GoError}
    {ro : Option String} (hm : mapLookup s.monitors r.GetKey = some m)
    (he : (m.RemoveEventHandler (some r) ro).1 = RemoveResult.errored e) :
    s.RemoveSecretEventHandler (some r) ro =
      (RemoveResult.errored e,
       { s with monitors :=
           mapInsert s.monitors r.GetKey (m.RemoveEventHandler (some r) ro).2 }) := by
  simp [SecretMonitorState.RemoveSecretEventHandler, hm, he]

theorem removeSecret_present_ok_pos {s : SecretMonitorState}
    {r : SecretEventHandlerRegistration} {m : SingleItemMonitor} {ro : Option String}
    (hm : mapLookup s.monitors r.GetKey = some m)
    (hok : (m.RemoveEventHandler (some r) ro).1 = RemoveResult.ok)
    (hpos : 0 < (m.RemoveEventHandler (some r) ro).2.numHandlers) :
    s.RemoveSecretEventHandler (some r) ro =
      (RemoveResult.ok,
       { s with monitors :=
           mapInsert s.monitors r.GetKey (m.RemoveEventHandler (some r) ro).2 }) := by
  have hnle : ¬((m.RemoveEventHandler (some r) ro).2.numHandlers ≤ 0) := by omega
  simp [SecretMonitorState.RemoveSecretEventHandler, hm, hok, hnle]

theorem removeSecret_present_ok_zero {s : SecretMonitorState}
    {r : SecretEventHandlerRegistration} {m : SingleItemMonitor} {ro : Option String}
    (hm : mapLookup s.monitors r.GetKey = some m)
    (hok : (m.RemoveEventHandler (some r) ro).1 = RemoveResult.ok)
    (hle : (m.RemoveEventHandler (some r) ro).2.numHandlers ≤ 0) :
    s.RemoveSecretEventHandler (some r) ro =
      (RemoveResult.ok,
       { s with monitors :=
           mapDelete (mapInsert s.monitors r.GetKey
             (((m.RemoveEventHandler (some r) ro).2.StopInformer).2)) r.GetKey }) := by
  simp [SecretMonitorState.RemoveSecretEventHandler, hm, hok, hle]

theorem stateWF_addStep (s : SecretMonitorState) (ns n : String) (hdl : Nat)
    (r : Except String Nat) (hwf : StateWF s) :
    StateWF (s.addSecretEventHandler ns n hdl r).2 := by
  obtain ⟨hgood, hnodup⟩ := hwf
  cases hlook : mapLookup s.monitors (NewObjectKey ns n) with
  | some m =>
    obtain ⟨hkey, hnum, hstop⟩ := hgood _ (mapLookup_mem hlook)
    have hnum2 : (0:Int) ≤ m.numHandlers := hnum
    rw [addSecretEventHandler_present hlook]
    cases r with
    | ok tok =>
      rw [addEventHandler_ok hstop]
      refine ⟨wfEntries_mapInsert hgood ⟨hkey, ?_, hstop⟩,
              nodup_keys_mapInsert hnodup⟩
      show (0:Int) ≤ m.numHandlers + 1
      omega
    | error msg =>
      rw [addEventHandler_informer_err hstop]
      exact ⟨wfEntries_mapInsert hgood ⟨hkey, hnum, hstop⟩,
             nodup_keys_mapInsert hnodup⟩
  | none =>
    rw [addSecretEventHandler_absent hlook]
    cases r with
    | ok tok =>
      rw [addEventHandler_ok (show (newSingleItemMonitor (NewObjectKey ns n) []
            s.nextGen).stopped = false from rfl)]
      refine ⟨wfEntries_mapInsert hgood ⟨rfl, ?_, rfl⟩,
              nodup_keys_mapInsert hnodup⟩
      show (0:Int) ≤ 0 + 1
      decide
    | error msg =>
      rw [addEventHandler_informer_err (show (newSingleItemMonitor (NewObjectKey ns n) []
            s.nextGen).stopped = false from rfl)]
      refine ⟨wfEntries_mapInsert hgood ⟨rfl, ?_, rfl⟩,
              nodup_keys_mapInsert hnodup⟩
      show (0:Int) ≤ 0
      decide

theorem stateWF_removeStep (s : SecretMonitorState)
    (reg : Option SecretEventHandlerRegistration) (ro : Option String)
    (hwf : StateWF s) : StateWF (s.RemoveSecretEventHandler reg ro).2 := by
  obtain ⟨hgood, hnodup⟩ := hwf
  cases reg with
  | none => rw [removeSecret_nil]; exact ⟨hgood, hnodup⟩
  | some r =>
    cases hlook : mapLookup s.monitors r.GetKey with
    | none => rw [removeSecret_absent hlook]; exact ⟨hgood, hnodup⟩
    | some m =>
      obtain ⟨hkey, hnum, hstop⟩ := hgood _ (mapLookup_mem hlook)
      cases ro with
      | some msg =>
        rw [removeSecret_present_err hlook
              (by rw [removeEventHandler_informer_err hstop])]
        rw [removeEventHandler_informer_err hstop]
        exact ⟨wfEntries_mapInsert hgood ⟨hkey, hnum, hstop⟩,
               nodup_keys_mapInsert hnodup⟩
      | none =>
        have hok : (m.RemoveEventHandler (some r) none).1 = RemoveResult.ok := by
          rw [removeEventHandler_ok hstop]
        by_cases hle : (m.RemoveEventHandler (some r) none).2.numHandlers ≤ 0
        · rw [removeSecret_present_ok_zero hlook hok hle]
          constructor
          · intro p hp
            obtain ⟨hpi, hpk⟩ := mem_mapDelete hp
            rcases mem_mapInsert hpi with hpe | hpe
            · exact absurd (by rw [hpe]) hpk
            · exact hgood p hpe
          · exact nodup_keys_mapDelete (nodup_keys_mapInsert hnodup)
        · have hle2 : ¬(m.numHandlers - 1 ≤ 0) := by
            rw [removeEventHandler_ok hstop] at hle
            simpa using hle
          rw [removeSecret_present_ok_pos hlook hok
                (by rw [removeEventHandler_ok hstop]
                    show (0:Int) < m.numHandlers - 1
                    omega)]
          rw [removeEventHandler_ok hstop]
          refine ⟨wfEntries_mapInsert hgood ⟨hkey, ?_, hstop⟩,
                  nodup_keys_mapInsert hnodup⟩
          show (0:Int) ≤ m.numHandlers - 1
          omega

theorem stateWF_muxStep (s : SecretMonitorState) (op : MuxOp) (hwf : StateWF s) :
    StateWF (muxStep s op) := by
  cases op with
  | add ns n hdl r => exact stateWF_addStep s ns n hdl r hwf
  | remove reg ro => exact stateWF_removeStep s reg ro hwf
  | get reg => exact hwf

theorem stateWF_muxRun (s : SecretMonitorState) (ops : List MuxOp) (hwf : StateWF s) :
    StateWF (muxRun s ops) := by
  induction ops generalizing s with
  | nil => exact hwf
  | cons op rest ih => exact ih _ (stateWF_muxStep s op hwf)

theorem strictWF_addStep (s : SecretMonitorState) (ns n : String) (hdl tok : Nat)
    (hwf : StrictWF s) :
    StrictWF (s.addSecretEventHandler ns n hdl (Except.ok tok)).2 := by
  obtain ⟨hgood, hnodup⟩ := hwf
  cases hlook : mapLookup s.monitors (NewObjectKey ns n) with
  | some m =>
    obtain ⟨hkey, hnum, hstop⟩ := hgood _ (mapLookup_mem hlook)
    have hnum2 : (0:Int) < m.numHandlers := hnum
    rw [addSecretEventHandler_present hlook, addEventHandler_ok hstop]
    refine ⟨wfEntries_mapInsert hgood ⟨hkey, ?_, hstop⟩,
            nodup_keys_mapInsert hnodup⟩
    show (0:Int) < m.numHandlers + 1
    omega
  | none =>
    rw [addSecretEventHandler_absent hlook,
        addEventHandler_ok (show (newSingleItemMonitor (NewObjectKey ns n) []
          s.nextGen).stopped = false from rfl)]
    refine ⟨wfEntries_mapInsert hgood ⟨rfl, ?_, rfl⟩,
            nodup_keys_mapInsert hnodup⟩
    show (0:Int) < 0 + 1
    decide

theorem strictWF_removeStep (s : SecretMonitorState)
    (reg : Option SecretEventHandlerRegistration) (ro : Option String)
    (hwf : StrictWF s) : StrictWF (s.RemoveSecretEventHandler reg ro).2 := by
  obtain ⟨hgood, hnodup⟩ := hwf
  cases reg with
  | none => rw [removeSecret_nil]; exact ⟨hgood, hnodup⟩
  | some r =>
    cases hlook : mapLookup s.monitors r.GetKey with
    | none => rw [removeSecret_absent hlook]; exact ⟨hgood, hnodup⟩
    | some m =>
      obtain ⟨hkey, hnum, hstop⟩ := hgood _ (mapLookup_mem hlook)
      cases ro with
      | some msg =>
        rw [removeSecret_present_err hlook
              (by rw [removeEventHandler_informer_err hstop])]
        rw [removeEventHandler_informer_err hstop]
        exact ⟨wfEntries_mapInsert hgood ⟨hkey, hnum, hstop⟩,
               nodup_keys_mapInsert hnodup⟩
      | none =>
        have hok : (m.RemoveEventHandler (some r) none).1 = RemoveResult.ok := by
          rw [removeEventHandler_ok hstop]
        by_cases hle : (m.RemoveEventHandler (some r) none).2.numHandlers ≤ 0
        · rw [removeSecret_present_ok_zero hlook hok hle]
          constructor
          · intro p hp
            obtain ⟨hpi, hpk⟩ := mem_mapDelete hp
            rcases mem_mapInsert hpi with hpe | hpe
            · exact absurd (by rw [hpe]) hpk
            · exact hgood p hpe
          · exact nodup_keys_mapDelete (nodup_keys_mapInsert hnodup)
        · have hle2 : ¬(m.numHandlers - 1 ≤ 0) := by
            rw [removeEventHandler_ok hstop] at hle
            simpa using hle
          rw [removeSecret_present_ok_pos hlook hok
                (by rw [removeEventHandler_ok hstop]
                    show (0:Int) < m.numHandlers - 1
                    omega)]
          rw [removeEventHandler_ok hstop]
          refine ⟨wfEntries_mapInsert hgood ⟨hkey, ?_, hstop⟩,
                  nodup_keys_mapInsert hnodup⟩
          show (0:Int) < m.numHandlers - 1
          omega

theorem strictWF_muxStep (s : SecretMonitorState) (op : MuxOp)
    (hop : opAddOk op = true) (hwf : StrictWF s) : StrictWF (muxStep s op) := by
  cases op with
  | add ns n hdl r =>
    cases r with
    | ok tok => exact strictWF_addStep s ns n hdl tok hwf
    | error msg => simp [opAddOk] at hop
  | remove reg ro => exact strictWF_removeStep s reg ro hwf
  | get reg => exact hwf

theorem strictWF_muxRun (s : SecretMonitorState) (ops : List MuxOp) :
    (∀ op ∈ ops, opAddOk op = true) → StrictWF s → StrictWF (muxRun s ops) := by
  induction ops generalizing s with
  | nil => exact fun _ hwf => hwf
  | cons op rest ih =>
    intro hops hwf
    exact ih _ (fun o ho => hops o (List.mem_cons_of_mem _ ho))
      (strictWF_muxStep s op (hops op (List.mem_cons_self _ _)) hwf)

theorem muxRun_cons (s : SecretMonitorState) (op : MuxOp) (l : List MuxOp) :
    muxRun s (op :: l) = muxRun (muxStep s op) l :=
  rfl

theorem runSingleton (k : ObjectKey) (ops : List MuxOp) :
    ∀ (m : SingleItemMonitor) (g : Nat),
      (∀ op ∈ ops, opTargetsKey k op = true) →
      m.stopped = false →
      (∀ i : Nat, 0 < i → i ≤ ops.length →
        (mapLookup (muxRun ⟨[(k, m)], g⟩ (ops.take i)).monitors k).isSome = true) →
      ∃ m2 : SingleItemMonitor,
        muxRun ⟨[(k, m)], g⟩ ops = ⟨[(k, m2)], g⟩ ∧
        m2.gen = m.gen ∧ m2.key = m.key ∧ m2.stopped = false ∧
        m2.numHandlers = m.numHandlers + succAddCount ops - succRemoveCount ops := by
  induction ops with
  | nil =>
    intro m g _ hstop _
    exact ⟨m, rfl, rfl, rfl, hstop, by simp [succAddCount, succRemoveCount]⟩
  | cons op rest ih =>
    intro m g htarget hstop hmapped
    have main : ∀ (m1 : SingleItemMonitor) (da dr : Int),
        muxStep ⟨[(k, m)], g⟩ op = ⟨[(k, m1)], g⟩ →
        m1.stopped = false → m1.gen = m.gen → m1.key = m.key →
        m1.numHandlers = m.numHandlers + da - dr →
        succAddCount (op :: rest) = succAddCount rest + da →
        succRemoveCount (op :: rest) = succRemoveCount rest + dr →
        ∃ m2 : SingleItemMonitor,
          muxRun ⟨[(k, m)], g⟩ (op :: rest) = ⟨[(k, m2)], g⟩ ∧
          m2.gen = m.gen ∧ m2.key = m.key ∧ m2.stopped = false ∧
          m2.numHandlers =
            m.numHandlers + succAddCount (op :: rest) - succRemoveCount (op :: rest) := by
      intro m1 da dr hstep hstop1 hgen1 hkey1 hnum1 hca hcr
      have htarget2 : ∀ o ∈ rest, opTargetsKey k o = true :=
        fun o ho => htarget o (List.mem_cons_of_mem _ ho)
      have hmapped2 : ∀ i : Nat, 0 < i → i ≤ rest.length →
          (mapLookup (muxRun ⟨[(k, m1)], g⟩ (rest.take i)).monitors k).isSome = true := by
        intro i hi hile
        have h2 := hmapped (i + 1) (by omega) (by rw [List.length_cons]; omega)
        rw [List.take_succ_cons, muxRun_cons, hstep] at h2
        exact h2
      obtain ⟨m2, hrun, hgen2, hkey2, hstop2, hnum2⟩ := ih m1 g htarget2 hstop1 hmapped2
      refine ⟨m2, ?_, ?_, ?_, hstop2, ?_⟩
      · rw [muxRun_cons, hstep]; exact hrun
      · rw [hgen2, hgen1]
      · rw [hkey2, hkey1]
      · rw [hnum2, hnum1, hca, hcr]; omega
    cases op with
    | get reg =>
      exact absurd (htarget _ (List.mem_cons_self _ _)) (by simp [opTargetsKey])
    | add ns2 n2 hdl r =>
      have hkeq : NewObjectKey ns2 n2 = k := by
        simpa [opTargetsKey] using htarget _ (List.mem_cons_self _ _)
      have hlook : mapLookup [(k, m)] (NewObjectKey ns2 n2) = some m := by
        rw [hkeq]; simp [mapLookup]
      cases r with
      | ok tok =>
        have hstep : muxStep ⟨[(k, m)], g⟩ (MuxOp.add ns2 n2 hdl (Except.ok tok)) =
            ⟨[(k, { m with numHandlers := m.numHandlers + 1 })], g⟩ := by
          show (SecretMonitorState.addSecretEventHandler _ _ _ _ _).2 = _
          rw [addSecretEventHandler_present hlook, addEventHandler_ok hstop, hkeq]
          simp [mapInsert]
        refine main _ 1 0 hstep hstop rfl rfl ?_ (by simp [succAddCount])
          (by simp [succRemoveCount])
        show m.numHandlers + 1 = m.numHandlers + 1 - 0
        omega
      | error msg =>
        have hstep : muxStep ⟨[(k, m)], g⟩ (MuxOp.add ns2 n2 hdl (Except.error msg)) =
            ⟨[(k, m)], g⟩ := by
          show (SecretMonitorState.addSecretEventHandler _ _ _ _ _).2 = _
          rw [addSecretEventHandler_present hlook, addEventHandler_informer_err hstop, hkeq]
          simp [mapInsert]
        refine main m 0 0 hstep hstop rfl rfl (by omega) (by simp [succAddCount])
          (by simp [succRemoveCount])
    | remove reg ro =>
      cases reg with
      | none =>
        exact absurd (htarget _ (List.mem_cons_self _ _)) (by simp [opTargetsKey])
      | some r =>
        have hkeq : r.objectKey = k := by
          simpa [opTargetsKey] using htarget _ (List.mem_cons_self _ _)
        have hrk : r.GetKey = k := hkeq
        have hlook : mapLookup [(k, m)] r.GetKey = some m := by
          rw [hrk]; simp [mapLookup]
        cases ro with
        | some msg =>
          have hstep : muxStep ⟨[(k, m)], g⟩ (MuxOp.remove (some r) (some msg)) =
              ⟨[(k, m)], g⟩ := by
            show (SecretMonitorState.RemoveSecretEventHandler _ _ _).2 = _
            rw [removeSecret_present_err hlook
                  (by rw [removeEventHandler_informer_err hstop]),
                removeEventHandler_informer_err hstop, hrk]
            simp [mapInsert]
          refine main m 0 0 hstep hstop rfl rfl (by omega) (by simp [succAddCount])
            (by simp [succRemoveCount])
        | none =>
          have hok : (m.RemoveEventHandler (some r) none).1 = RemoveResult.ok := by
            rw [removeEventHandler_ok hstop]
          by_cases hle : m.numHandlers - 1 ≤ 0
          · exfalso
            have hstep0 : muxStep ⟨[(k, m)], g⟩ (MuxOp.remove (some r) none) =
                ⟨[], g⟩ := by
              show (SecretMonitorState.RemoveSecretEventHandler _ _ _).2 = _
              rw [removeSecret_present_ok_zero hlook hok
                    (by rw [removeEventHandler_ok hstop]
                        show m.numHandlers - 1 ≤ 0
                        exact hle), hrk]
              simp [mapInsert, mapDelete]
            have h1 := hmapped 1 (by omega) (by rw [List.length_cons]; omega)
            rw [List.take_succ_cons, List.take_zero, muxRun_cons, hstep0] at h1
            simp [muxRun, mapLookup] at h1
          · have hstep : muxStep ⟨[(k, m)], g⟩ (MuxOp.remove (some r) none) =
                ⟨[(k, { m with numHandlers := m.numHandlers - 1 })], g⟩ := by
              show (SecretMonitorState.RemoveSecretEventHandler _ _ _).2 = _
              rw [removeSecret_present_ok_pos hlook hok
                    (by rw [removeEventHandler_ok hstop]
                        show (0:Int) < m.numHandlers - 1
                        omega),
                  removeEventHandler_ok hstop, hrk]
              simp [mapInsert]
            refine main _ 0 1 hstep hstop rfl rfl ?_ (by simp [succAddCount])
              (by simp [succRemoveCount])
            show m.numHandlers - 1 = m.numHandlers + 0 - 1
            omega

theorem addRegistration_key {s : SecretMonitorState} {ns n : String} {hdl : Nat}
    {r : Except String Nat} {reg : SecretEventHandlerRegistration}
    (hwf : StateWF s)
    (hok : (s.addSecretEventHandler ns n hdl r).1 = Except.ok reg) :
    reg.GetKey = NewObjectKey ns n := by
  cases hlook : mapLookup s.monitors (NewObjectKey ns n) with
  | some m =>
    obtain ⟨hkey, hnum, hstop⟩ := hwf.1 _ (mapLookup_mem hlook)
    have hkey2 : m.key = NewObjectKey ns n := hkey
    rw [addSecretEventHandler_present hlook] at hok
    cases r with
    | ok tok =>
      rw [addEventHandler_ok hstop] at hok
      simp at hok
      rw [← hok]
      exact hkey2
    | error msg =>
      rw [addEventHandler_informer_err hstop] at hok
      simp at hok
  | none =>
    rw [addSecretEventHandler_absent hlook] at hok
    cases r with
    | ok tok =>
      rw [addEventHandler_ok (show (newSingleItemMonitor (NewObjectKey ns n) []
            s.nextGen).stopped = false from rfl)] at hok
      simp at hok
      rw [← hok]
      rfl
    | error msg =>
      rw [addEventHandler_informer_err (show (newSingleItemMonitor (NewObjectKey ns n) []
            s.nextGen).stopped = false from rfl)] at hok
      simp at hok

/-- C2: for every sequence of multiplexer calls targeting one identity
`(ns, n)` from a fresh multiplexer, with no intervening teardown (the key
stays mapped after every call), exactly one `singleItemMonitor` is
allocated (the trace ends with allocation counter 1 and the mapped monitor
is allocation 0, created by the first call and reused afterwards), its
listener counter equals the number of successful adds minus the number of
successful removes, and every registration returned by a successful add on
any well-formed state carries `GetKey` equal to `NewObjectKey ns n`. -/
theorem c2_one_monitor_and_counter (ns n : String) (ops : List MuxOp)
    (hne : ops ≠ [])
    (htarget : ∀ op ∈ ops, opTargetsKey (NewObjectKey ns n) op = true)
    (hmapped : ∀ i : Nat, i ≤ ops.length → 0 < i →
      (mapLookup (muxRun NewSecretMonitor (ops.take i)).monitors
        (NewObjectKey ns n)).isSome = true) :
    ((muxRun NewSecretMonitor ops).nextGen = 1 ∧
     ∃ m2 : SingleItemMonitor,
       mapLookup (muxRun NewSecretMonitor ops).monitors (NewObjectKey ns n) = some m2 ∧
       m2.gen = 0 ∧ m2.key = NewObjectKey ns n ∧ m2.stopped = false ∧
       m2.numHandlers = succAddCount ops - succRemoveCount ops) ∧
    (∀ (s : SecretMonitorState) (ns2 n2 : String) (hdl : Nat)
       (r : Except String Nat) (reg : SecretEventHandlerRegistration),
       StateWF s → (s.addSecretEventHandler ns2 n2 hdl r).1 = Except.ok reg →
       reg.GetKey = NewObjectKey ns2 n2) := by
  refine ⟨?_, fun s2 ns2 n2 hdl r reg hwf hok => addRegistration_key hwf hok⟩
  cases ops with
  | nil => exact absurd rfl hne
  | cons op rest =>
    cases op with
    | get reg =>
      exact absurd (htarget _ (List.mem_cons_self _ _)) (by simp [opTargetsKey])
    | remove reg ro =>
      cases reg with
      | none =>
        exact absurd (htarget _ (List.mem_cons_self _ _)) (by simp [opTargetsKey])
      | some r =>
        exfalso
        have hstep : muxStep NewSecretMonitor (MuxOp.remove (some r) ro) =
            NewSecretMonitor := by
          show (SecretMonitorState.RemoveSecretEventHandler _ _ _).2 = _
          rw [removeSecret_absent
                (show mapLookup NewSecretMonitor.monitors r.GetKey = none from rfl)]
        have h1 := hmapped 1 (by rw [List.length_cons]; omega) (by omega)
        rw [List.take_succ_cons, List.take_zero, muxRun_cons, hstep] at h1
        simp [muxRun, mapLookup, NewSecretMonitor] at h1
    | add ns2 n2 hdl r =>
      have hkeq : NewObjectKey ns2 n2 = NewObjectKey ns n := by
        simpa [opTargetsKey] using htarget _ (List.mem_cons_self _ _)
      have htarget2 : ∀ o ∈ rest, opTargetsKey (NewObjectKey ns n) o = true :=
        fun o ho => htarget o (List.mem_cons_of_mem _ ho)
      cases r with
      | ok tok =>
        have hstep : muxStep NewSecretMonitor (MuxOp.add ns2 n2 hdl (Except.ok tok)) =
            ⟨[(NewObjectKey ns n,
               { key := NewObjectKey ns n, numHandlers := 1, stopped := false,
                 stopChClosed := false, store := [], gen := 0 })], 1⟩ := by
          show (SecretMonitorState.addSecretEventHandler _ _ _ _ _).2 = _
          rw [addSecretEventHandler_absent
                (show mapLookup NewSecretMonitor.monitors (NewObjectKey ns2 n2) = none
                  from rfl),
              addEventHandler_ok (show (newSingleItemMonitor (NewObjectKey ns2 n2) []
                NewSecretMonitor.nextGen).stopped = false from rfl), hkeq]
          simp [mapInsert, newSingleItemMonitor, NewSecretMonitor]
        have hmapped2 : ∀ i : Nat, 0 < i → i ≤ rest.length →
            (mapLookup (muxRun ⟨[(NewObjectKey ns n,
               { key := NewObjectKey ns n, numHandlers := 1, stopped := false,
                 stopChClosed := false, store := [], gen := 0 })], 1⟩
              (rest.take i)).monitors (NewObjectKey ns n)).isSome = true := by
          intro i hi hile
          have h2 := hmapped (i + 1) (by rw [List.length_cons]; omega) (by omega)
          rw [List.take_succ_cons, muxRun_cons, hstep] at h2
          exact h2
        obtain ⟨m2, hrun, hgen2, hkey2, hstop2, hnum2⟩ :=
          runSingleton (NewObjectKey ns n) rest _ 1 htarget2 rfl hmapped2
        have hnum3 : m2.numHandlers = 1 + succAddCount rest - succRemoveCount rest :=
          hnum2
        refine ⟨?_, m2, ?_, ?_, ?_, hstop2, ?_⟩
        · rw [muxRun_cons, hstep, hrun]
        · rw [muxRun_cons, hstep, hrun]; simp [mapLookup]
        · rw [hgen2]
        · rw [hkey2]
        · rw [hnum3]
          simp only [succAddCount, succRemoveCount]
          omega
      | error msg =>
        have hstep : muxStep NewSecretMonitor (MuxOp.add ns2 n2 hdl (Except.error msg)) =
            ⟨[(NewObjectKey ns n,
               { key := NewObjectKey ns n, numHandlers := 0, stopped := false,
                 stopChClosed := false, store := [], gen := 0 })], 1⟩ := by
          show (SecretMonitorState.addSecretEventHandler _ _ _ _ _).2 = _
          rw [addSecretEventHandler_absent
                (show mapLookup NewSecretMonitor.monitors (NewObjectKey ns2 n2) = none
                  from rfl),
              addEventHandler_informer_err
                (show (newSingleItemMonitor (NewObjectKey ns2 n2) []
                  NewSecretMonitor.nextGen).stopped = false from rfl), hkeq]
          simp [mapInsert, newSingleItemMonitor, NewSecretMonitor]
        have hmapped2 : ∀ i : Nat, 0 < i → i ≤ rest.length →
            (mapLookup (muxRun ⟨[(NewObjectKey ns n,
               { key := NewObjectKey ns n, numHandlers := 0, stopped := false,
                 stopChClosed := false, store := [], gen := 0 })], 1⟩
              (rest.take i)).monitors (NewObjectKey ns n)).isSome = true := by
          intro i hi hile
          have h2 := hmapped (i + 1) (by rw [List.length_cons]; omega) (by omega)
          rw [List.take_succ_cons, muxRun_cons, hstep] at h2
          exact h2
        obtain ⟨m2, hrun, hgen2, hkey2, hstop2, hnum2⟩ :=
          runSingleton (NewObjectKey ns n) rest _ 1 htarget2 rfl hmapped2
        have hnum3 : m2.numHandlers = 0 + succAddCount rest - succRemoveCount rest :=
          hnum2
        refine ⟨?_, m2, ?_, ?_, ?_, hstop2, ?_⟩
        · rw [muxRun_cons, hstep, hrun]
        · rw [muxRun_cons, hstep, hrun]; simp [mapLookup]
        · rw [hgen2]
        · rw [hkey2]
        · rw [hnum3]
          simp only [succAddCount, succRemoveCount]
          omega

/-- C2 witness: the trace `opsAX` (create, reuse, one remove) satisfies the
hypotheses of `c2_one_monitor_and_counter`, and exactly one monitor was
allocated along it. -/
theorem c2_one_monitor_and_counter_witness :
    (opsAX ≠ []) ∧
    (∀ op ∈ opsAX, opTargetsKey (NewObjectKey "a" "x") op = true) ∧
    (∀ i : Nat, i ≤ opsAX.length → 0 < i →
      (mapLookup (muxRun NewSecretMonitor (opsAX.take i)).monitors
        (NewObjectKey "a" "x")).isSome = true) ∧
    (muxRun NewSecretMonitor opsAX).nextGen = 1 :=
  ⟨by simp [opsAX], by decide, by decide,
   (c2_one_monitor_and_counter "a" "x" opsAX (by simp [opsAX]) (by decide)
     (by decide)).1.1⟩

/-- C1 (amended): in every state reachable from a fresh multiplexer by any
sequence of AddSecretEventHandler, RemoveSecretEventHandler and GetSecret
calls, the map keys are pairwise distinct (never more than one monitor per
identity) and every mapped monitor carries its map key, is not stopped and
has a non-negative listener counter; when additionally the informer
accepted every handler registration of the trace, every mapped monitor's
counter is strictly positive.  (The claim's unconditional "counter > 0" is
refuted by `c1_counterexample`.) -/
theorem c1_map_invariant :
    (∀ ops : List MuxOp, StateWF (muxRun NewSecretMonitor ops)) ∧
    (∀ ops : List MuxOp, (∀ op ∈ ops, opAddOk op = true) →
      ∀ p ∈ (muxRun NewSecretMonitor ops).monitors, strictEntry p) := by
  constructor
  · intro ops
    exact stateWF_muxRun _ _ ⟨by simp [NewSecretMonitor], by simp [NewSecretMonitor]⟩
  · intro ops hops
    exact (strictWF_muxRun _ _ hops
      ⟨by simp [NewSecretMonitor], by simp [NewSecretMonitor]⟩).1

/-- C1 witness: along the all-adds-accepted trace `opsAX` every mapped
monitor has a strictly positive counter. -/
theorem c1_map_invariant_witness :
    (∀ op ∈ opsAX, opAddOk op = true) ∧
    (∀ p ∈ (muxRun NewSecretMonitor opsAX).monitors, strictEntry p) :=
  ⟨by decide, c1_map_invariant.2 opsAX (by decide)⟩

/-- C1 counterexample: one AddSecretEventHandler call whose informer
registration fails leaves the identity mapped to a monitor whose listener
counter is 0, refuting "a key is present only if its monitor's counter is
greater than 0". -/
theorem c1_counterexample :
    (mapLookup (muxRun NewSecretMonitor
        [MuxOp.add "ns" "s" 0 (Except.error "informer rejected")]).monitors
      (NewObjectKey "ns" "s")).map SingleItemMonitor.numHandlers = some 0 := by
  decide

/-- C7 (amended): every monitor present in the multiplexer's map has a
non-negative listener counter in every reachable state; the bare
singleItemMonitor level, however, has no counter guard, and a removal the
informer reports as successful decrements the counter even from 0 with no
error (`c7_counterexample`) — the multiplexer's `<= 0` teardown check is
what evicts such monitors from the map. -/
theorem c7_mapped_counter_nonneg :
    ∀ (ops : List MuxOp) (p : ObjectKey × SingleItemMonitor),
      p ∈ (muxRun NewSecretMonitor ops).monitors → 0 ≤ p.2.numHandlers :=
  fun ops p hp =>
    ((stateWF_muxRun _ ops
        ⟨by simp [NewSecretMonitor], by simp [NewSecretMonitor]⟩).1 p hp).2.1

/-- C7 witness: the single mapped monitor after one successful add has a
non-negative counter. -/
theorem c7_mapped_counter_nonneg_witness :
    ((keyAX,
      ({ key := keyAX, numHandlers := 1, stopped := false,
         stopChClosed := false, store := [], gen := 0 } : SingleItemMonitor)) ∈
      (muxRun NewSecretMonitor [MuxOp.add "a" "x" 5 (Except.ok 3)]).monitors) ∧
    (0:Int) ≤
      ({ key := keyAX, numHandlers := 1, stopped := false,
         stopChClosed := false, store := [], gen := 0 } : SingleItemMonitor).numHandlers :=
  ⟨by decide,
   c7_mapped_counter_nonneg [MuxOp.add "a" "x" 5 (Except.ok 3)]
     (keyAX,
      { key := keyAX, numHandlers := 1, stopped := false,
        stopChClosed := false, store := [], gen := 0 }) (by decide)⟩

/-- C7 counterexample: after one successful add, removing the same
registration twice — with the informer reporting success both times, as
client-go's idempotent RemoveEventHandler does — drives the monitor's
counter to -1; the second removal returns ok, not a typed error. -/
theorem c7_counterexample :
    (monRun (newSingleItemMonitor (NewObjectKey "ns" "s") [] 0)
      [MonOp.add 5 (Except.ok 0),
       MonOp.remove (some { token := 0, objectKey := NewObjectKey "ns" "s" }) none,
       MonOp.remove (some { token := 0, objectKey := NewObjectKey "ns" "s" }) none]
      ).numHandlers = -1 ∧
    ((monRun (newSingleItemMonitor (NewObjectKey "ns" "s") [] 0)
      [MonOp.add 5 (Except.ok 0),
       MonOp.remove (some { token := 0, objectKey := NewObjectKey "ns" "s" }) none]
      ).RemoveEventHandler
        (some { token := 0, objectKey := NewObjectKey "ns" "s" }) none).1 =
      RemoveResult.ok := by
  constructor <;> decide

/-- C3: for a non-nil registration whose identity is mapped to a running
monitor, the delegated removal succeeds and decrements the counter; when
the post-removal counter is ≤ 0 (in particular when it has reached zero)
the multiplexer returns nil, performs the stop transition on that monitor
and deletes its map entry; when it is still positive the entry remains
mapped to the decremented monitor, which is not stopped. -/
theorem c3_stop_and_evict_on_zero (s : SecretMonitorState)
    (r : SecretEventHandlerRegistration) (m : SingleItemMonitor)
    (hm : mapLookup s.monitors r.GetKey = some m)
    (hstop : m.stopped = false) :
    (m.RemoveEventHandler (some r) none =
      (RemoveResult.ok, { m with numHandlers := m.numHandlers - 1 })) ∧
    (m.numHandlers - 1 ≤ 0 →
      (s.RemoveSecretEventHandler (some r) none).1 = RemoveResult.ok ∧
      mapLookup (s.RemoveSecretEventHandler (some r) none).2.monitors r.GetKey =
        none ∧
      ({ m with numHandlers := m.numHandlers - 1 } : SingleItemMonitor).StopInformer =
        (true,
         { m with
           numHandlers := m.numHandlers - 1, stopped := true,
           stopChClosed := true })) ∧
    (0 < m.numHandlers - 1 →
      (s.RemoveSecretEventHandler (some r) none).1 = RemoveResult.ok ∧
      mapLookup (s.RemoveSecretEventHandler (some r) none).2.monitors r.GetKey =
        some { m with numHandlers := m.numHandlers - 1 } ∧
      ({ m with numHandlers := m.numHandlers - 1 } : SingleItemMonitor).stopped =
        false) := by
  have hok : (m.RemoveEventHandler (some r) none).1 = RemoveResult.ok := by
    rw [removeEventHandler_ok hstop]
  refine ⟨removeEventHandler_ok hstop r, ?_, ?_⟩
  · intro hle
    have hle2 : (m.RemoveEventHandler (some r) none).2.numHandlers ≤ 0 := by
      rw [removeEventHandler_ok hstop]
      exact hle
    rw [removeSecret_present_ok_zero hm hok hle2]
    refine ⟨rfl, ?_, ?_⟩
    · rw [removeEventHandler_ok hstop]
      exact mapLookup_mapDelete_self _ _
    · simp [SingleItemMonitor.StopInformer, hstop]
  · intro hpos
    have hpos2 : 0 < (m.RemoveEventHandler (some r) none).2.numHandlers := by
      rw [removeEventHandler_ok hstop]
      exact hpos
    rw [removeSecret_present_ok_pos hm hok hpos2]
    refine ⟨rfl, ?_, hstop⟩
    rw [removeEventHandler_ok hstop]
    exact mapLookup_mapInsert_self _ _ _

/-- C3 witness: removing the only listener of `monAX1` tears the monitor
down: nil return, entry deleted, stop transition performed. -/
theorem c3_stop_and_evict_on_zero_witness :
    (mapLookup stateAX1.monitors regAX.GetKey = some monAX1) ∧
    monAX1.stopped = false ∧
    monAX1.numHandlers - 1 ≤ 0 ∧
    ((stateAX1.RemoveSecretEventHandler (some regAX) none).1 = RemoveResult.ok ∧
     mapLookup (stateAX1.RemoveSecretEventHandler (some regAX) none).2.monitors
       regAX.GetKey = none ∧
     ({ monAX1 with numHandlers := monAX1.numHandlers - 1 } :
         SingleItemMonitor).StopInformer =
       (true,
        { monAX1 with
          numHandlers := monAX1.numHandlers - 1, stopped := true,
          stopChClosed := true })) :=
  ⟨by decide, rfl, by decide,
   (c3_stop_and_evict_on_zero stateAX1 regAX monAX1 (by decide) rfl).2.1 (by decide)⟩

/-- C4: StopInformer is idempotent: on a running monitor it returns true,
sets the stopped flag and closes the stop channel; on a stopped monitor it
returns false and leaves the monitor unchanged; and no sequence of
AddEventHandler, RemoveEventHandler and StopInformer calls ever returns a
stopped monitor to the running state. -/
theorem c4_stop_idempotent :
    (∀ i : SingleItemMonitor, i.stopped = false →
      i.StopInformer = (true, { i with stopped := true, stopChClosed := true })) ∧
    (∀ i : SingleItemMonitor, i.stopped = true → i.StopInformer = (false, i)) ∧
    (∀ (i : SingleItemMonitor) (ops : List MonOp), i.stopped = true →
      (monRun i ops).stopped = true) := by
  refine ⟨fun i h => by simp [SingleItemMonitor.StopInformer, h],
          fun i h => by simp [SingleItemMonitor.StopInformer, h], ?_⟩
  intro i ops
  induction ops generalizing i with
  | nil => exact fun h => h
  | cons op rest ih =>
    intro h
    refine ih _ ?_
    cases op with
    | add hdl r =>
      rw [show monStep i (MonOp.add hdl r) = (i.AddEventHandler hdl r).2 from rfl,
          addEventHandler_stopped h]
      exact h
    | remove handle ro =>
      cases handle with
      | none =>
        rw [show monStep i (MonOp.remove none ro) =
              (i.RemoveEventHandler none ro).2 from rfl,
            removeEventHandler_nil]
        exact h
      | some r =>
        rw [show monStep i (MonOp.remove (some r) ro) =
              (i.RemoveEventHandler (some r) ro).2 from rfl,
            removeEventHandler_stopped h]
        exact h
    | stop =>
      rw [show monStep i MonOp.stop = (i.StopInformer).2 from rfl]
      simp [SingleItemMonitor.StopInformer, h]

/-- C4 witness: stopping `monAX1` once returns true and stops it; stopping
the stopped variant returns false and changes nothing, and it stays stopped
under further calls. -/
theorem c4_stop_idempotent_witness :
    monAX1.stopped = false ∧
    monAX1.StopInformer =
      (true, { monAX1 with stopped := true, stopChClosed := true }) ∧
    monAXStopped.stopped = true ∧
    monAXStopped.StopInformer = (false, monAXStopped) ∧
    (monRun monAXStopped [MonOp.stop, MonOp.add 1 (Except.ok 0)]).stopped = true :=
  ⟨rfl, c4_stop_idempotent.1 monAX1 rfl, rfl,
   c4_stop_idempotent.2.1 monAXStopped rfl,
   c4_stop_idempotent.2.2 monAXStopped [MonOp.stop, MonOp.add 1 (Except.ok 0)] rfl⟩

/-- C5: AddEventHandler on a stopped monitor returns an error and leaves
the monitor — in particular its listener counter — unchanged; on a running
monitor with a handler the informer accepts it increments the counter by
exactly one and returns a registration embedding the monitor's ObjectKey. -/
theorem c5_add_stopped_and_running :
    (∀ (i : SingleItemMonitor) (hdl : Nat) (r : Except String Nat),
      i.stopped = true →
      i.AddEventHandler hdl r = (Except.error (GoError.alreadyStoppedAdd hdl), i)) ∧
    (∀ (i : SingleItemMonitor) (hdl tok : Nat),
      i.stopped = false →
      i.AddEventHandler hdl (Except.ok tok) =
        (Except.ok { token := tok, objectKey := i.key },
         { i with numHandlers := i.numHandlers + 1 })) :=
  ⟨fun i hdl r h => addEventHandler_stopped h hdl r,
   fun i hdl tok h => addEventHandler_ok h hdl tok⟩

/-- C5 witness: adding to the stopped fixture fails without changing it;
adding to the running fixture increments the counter and embeds the key. -/
theorem c5_add_stopped_and_running_witness :
    monAXStopped.stopped = true ∧
    monAXStopped.AddEventHandler 9 (Except.ok 4) =
      (Except.error (GoError.alreadyStoppedAdd 9), monAXStopped) ∧
    monAX1.stopped = false ∧
    monAX1.AddEventHandler 9 (Except.ok 4) =
      (Except.ok { token := 4, objectKey := monAX1.key },
       { monAX1 with numHandlers := monAX1.numHandlers + 1 }) :=
  ⟨rfl, c5_add_stopped_and_running.1 monAXStopped 9 (Except.ok 4) rfl, rfl,
   c5_add_stopped_and_running.2 monAX1 9 4 rfl⟩

/-- C6 counterexample: RemoveEventHandler with a nil registration on a
running singleItemMonitor panics (nil-interface method call) rather than
returning a typed error — the Go body invokes `handle.GetHandler()` with no
nil check, and the repository's own test recovers this panic. -/
theorem c6_counterexample :
    (monAX1.RemoveEventHandler none none).1 = RemoveResult.panicked := by
  decide

/-- C6 (amended): at the singleItemMonitor level a nil registration makes
RemoveEventHandler panic, leaving the monitor unchanged — the nil guard
lives one layer up, in the multiplexer, whose RemoveSecretEventHandler
returns the typed nil-handler error; RemoveEventHandler on a stopped
monitor with a non-nil registration returns a typed error without touching
the counter. -/
theorem c6_nil_panics_stopped_errors :
    (∀ (i : SingleItemMonitor) (ro : Option String),
      i.RemoveEventHandler none ro = (RemoveResult.panicked, i)) ∧
    (∀ (i : SingleItemMonitor) (r : SecretEventHandlerRegistration)
       (ro : Option String),
      i.stopped = true →
      i.RemoveEventHandler (some r) ro =
        (RemoveResult.errored (GoError.alreadyStoppedRemove r.GetHandler), i)) ∧
    (∀ (s : SecretMonitorState) (ro : Option String),
      s.RemoveSecretEventHandler none ro =
        (RemoveResult.errored GoError.nilHandler, s)) :=
  ⟨fun i ro => removeEventHandler_nil i ro,
   fun i r ro h => removeEventHandler_stopped h r ro,
   fun s ro => removeSecret_nil s ro⟩

/-- C6 witness: removing from the stopped fixture yields the typed
already-stopped error and leaves the monitor unchanged. -/
theorem c6_nil_panics_stopped_errors_witness :
    monAXStopped.stopped = true ∧
    monAXStopped.RemoveEventHandler (some regAX) none =
      (RemoveResult.errored (GoError.alreadyStoppedRemove regAX.GetHandler),
       monAXStopped) :=
  ⟨rfl, c6_nil_panics_stopped_errors.2.1 monAXStopped regAX none rfl⟩

/-- C8: RemoveSecretEventHandler returns the typed nil-handler error on a
nil registration, and is a state-preserving no-op success when the
registration is non-nil but its identity has no entry in the monitors
map. -/
theorem c8_nil_error_absent_noop :
    (∀ (s : SecretMonitorState) (ro : Option String),
      s.RemoveSecretEventHandler none ro =
        (RemoveResult.errored GoError.nilHandler, s)) ∧
    (∀ (s : SecretMonitorState) (r : SecretEventHandlerRegistration)
       (ro : Option String),
      mapLookup s.monitors r.GetKey = none →
      s.RemoveSecretEventHandler (some r) ro = (RemoveResult.ok, s)) :=
  ⟨fun s ro => removeSecret_nil s ro, fun s r ro h => removeSecret_absent h ro⟩

/-- C8 witness: on a fresh multiplexer, removing a registration for a
never-registered identity is a no-op success. -/
theorem c8_nil_error_absent_noop_witness :
    mapLookup NewSecretMonitor.monitors regAX.GetKey = none ∧
    NewSecretMonitor.RemoveSecretEventHandler (some regAX) none =
      (RemoveResult.ok, NewSecretMonitor) :=
  ⟨rfl, c8_nil_error_absent_noop.2 NewSecretMonitor regAX none rfl⟩

/-- C9: GetSecret fails with the typed nil-handler error on a nil
registration, with the monitor-missing error when the identity is not in
the map, with the not-in-cache error when the mapped monitor's cache lookup
misses (never a silent empty success), with the unexpected-type error when
the cache entry fails the secret type assertion, and returns the cached
secret with nil error otherwise — these five cases are exhaustive. -/
theorem c9_get_secret_cases :
    (∀ s : SecretMonitorState, s.GetSecret none = Except.error GoError.nilHandler) ∧
    (∀ (s : SecretMonitorState) (r : SecretEventHandlerRegistration),
      mapLookup s.monitors r.GetKey = none →
      s.GetSecret (some r) = Except.error (GoError.monitorDoesNotExist r.GetKey)) ∧
    (∀ (s : SecretMonitorState) (r : SecretEventHandlerRegistration)
       (m : SingleItemMonitor),
      mapLookup s.monitors r.GetKey = some m → m.GetItem = none →
      s.GetSecret (some r) = Except.error (GoError.notInCache r.GetKey.Name)) ∧
    (∀ (s : SecretMonitorState) (r : SecretEventHandlerRegistration)
       (m : SingleItemMonitor) (t : String),
      mapLookup s.monitors r.GetKey = some m →
      m.GetItem = some (CacheEntry.otherType t) →
      s.GetSecret (some r) = Except.error (GoError.unexpectedType t)) ∧
    (∀ (s : SecretMonitorState) (r : SecretEventHandlerRegistration)
       (m : SingleItemMonitor) (sec : V1Secret),
      mapLookup s.monitors r.GetKey = some m →
      m.GetItem = some (CacheEntry.secretObj sec) →
      s.GetSecret (some r) = Except.ok sec) := by
  refine ⟨fun s => rfl, ?_, ?_, ?_, ?_⟩ <;>
    · intros s r
      intros
      simp [SecretMonitorState.GetSecret, *]

/-- C9 witness: on the fixture state, a registration for `a/x` returns the
cached secret. -/
theorem c9_get_secret_cases_witness :
    mapLookup stateAX1.monitors regAX.GetKey = some monAX1 ∧
    monAX1.GetItem = some (CacheEntry.secretObj secAX) ∧
    stateAX1.GetSecret (some regAX) = Except.ok secAX :=
  ⟨by decide, by decide,
   c9_get_secret_cases.2.2.2.2 stateAX1 regAX monAX1 secAX (by decide) (by decide)⟩

/-- C10: when the mapped monitor's RemoveEventHandler returns an error, the
multiplexer's RemoveSecretEventHandler returns that same error with the
multiplexer state unchanged — the map entry is retained with the same
monitor, neither stopped nor decremented. -/
theorem c10_remove_error_atomic (s : SecretMonitorState)
    (r : SecretEventHandlerRegistration) (m : SingleItemMonitor)
    (ro : Option String) (e : GoError)
    (hm : mapLookup s.monitors r.GetKey = some m)
    (he : (m.RemoveEventHandler (some r) ro).1 = RemoveResult.errored e) :
    s.RemoveSecretEventHandler (some r) ro = (RemoveResult.errored e, s) ∧
    mapLookup (s.RemoveSecretEventHandler (some r) ro).2.monitors r.GetKey =
      some m := by
  have hunch : (m.RemoveEventHandler (some r) ro).2 = m := by
    cases hstop2 : m.stopped with
    | true => rw [removeEventHandler_stopped hstop2]
    | false =>
      cases ro with
      | some msg => rw [removeEventHandler_informer_err hstop2]
      | none =>
        rw [removeEventHandler_ok hstop2] at he
        exact absurd he (by simp)
  have heq := removeSecret_present_err hm he
  rw [hunch, mapInsert_lookup_self hm] at heq
  exact ⟨heq, by rw [heq]; exact hm⟩

/-- C10 witness: an informer failure during removal surfaces unchanged and
leaves the fixture state intact. -/
theorem c10_remove_error_atomic_witness :
    mapLookup stateAX1.monitors regAX.GetKey = some monAX1 ∧
    (monAX1.RemoveEventHandler (some regAX) (some "watch closed")).1 =
      RemoveResult.errored (GoError.informerError "watch closed") ∧
    stateAX1.RemoveSecretEventHandler (some regAX) (some "watch closed") =
      (RemoveResult.errored (GoError.informerError "watch closed"), stateAX1) :=
  ⟨by decide, by decide,
   (c10_remove_error_atomic stateAX1 regAX monAX1 (some "watch closed")
     (GoError.informerError "watch closed") (by decide) (by decide)).1⟩

end RouteSecret
